import Mathlib

/-!
Verification development for `batch_process_custom.py`, a batch wrapper around
the external `txt2stix` converter.  The Python source is shallowly embedded:

* Python `str` values used as paths / command-line tokens become `Str := List Char`;
* file contents become `List Nat` (byte values), decoded text becomes `List Nat`
  (Unicode code points);
* the filesystem becomes an association list from paths to byte contents;
* the behaviours of the environment that the program merely observes (the exit
  status of the spawned subprocess, the files it creates, whether `os.rename`
  raises, the outcome of the best-effort `json.load`) are fields of a `World`
  record, and the program text is translated line by line against that record.
-/

namespace BatchProcess

/-- Python strings (paths, command-line tokens) are modelled as lists of characters. -/
abbrev Str := List Char

/-- File contents are byte lists; decoded text is a list of Unicode code points. -/
abbrev Bytes := List Nat

/-! ## Byte-level codecs

`create_temp_utf8_file` tries the encodings
utf-8-sig, utf-8, latin-1, cp1252, windows-1252 (in that order) and keeps
the first that decodes without `UnicodeDecodeError`.  We model each codec at the
byte level, exactly as the strict CPython decoders behave.
-/

/-- A Unicode scalar value: what a Python `str` character produced by a decoder,
or accepted by the UTF-8 encoder, may be (no surrogates, below U+110000). -/
def ValidScalar (c : Nat) : Prop := c < 0x110000 ∧ ¬ (0xD800 ≤ c ∧ c ≤ 0xDFFF)

instance (c : Nat) : Decidable (ValidScalar c) := by
  unfold ValidScalar; infer_instance

/-- Strict UTF-8 encoding of one scalar value (CPython str.encode as UTF-8,
one character). -/
def utf8EncodeChar (c : Nat) : Bytes :=
  if c < 0x80 then [c]
  else if c < 0x800 then [0xC0 + c / 64, 0x80 + c % 64]
  else if c < 0x10000 then
    [0xE0 + c / 4096, 0x80 + (c / 64) % 64, 0x80 + c % 64]
  else
    [0xF0 + c / 0x40000, 0x80 + (c / 4096) % 64, 0x80 + (c / 64) % 64, 0x80 + c % 64]

/-- Strict UTF-8 encoding of a whole text. -/
def utf8Join (t : List Nat) : Bytes := (t.map utf8EncodeChar).flatten

/-- Strict UTF-8 decoding, fuelled so that the recursion is structural in the
fuel (a sequence consumes one to four bytes).  The fuel never runs out when it
starts at the length of the input; `utf8Decode` below fixes it so. -/
def utf8DecodeF : Nat → Bytes → Option (List Nat)
  | _, [] => some []
  | 0, _ :: _ => none
  | fuel + 1, b :: l =>
    if b ≤ 0x7F then
      (utf8DecodeF fuel l).map (fun t => b :: t)
    else if 0xC2 ≤ b ∧ b ≤ 0xDF then
      match l with
      | b1 :: l1 =>
        if 0x80 ≤ b1 ∧ b1 ≤ 0xBF then
          (utf8DecodeF fuel l1).map (fun t => ((b - 0xC0) * 64 + (b1 - 0x80)) :: t)
        else none
      | [] => none
    else if 0xE0 ≤ b ∧ b ≤ 0xEF then
      match l with
      | b1 :: b2 :: l2 =>
        if ((b = 0xE0 ∧ 0xA0 ≤ b1 ∧ b1 ≤ 0xBF) ∨
            (0xE1 ≤ b ∧ b ≤ 0xEC ∧ 0x80 ≤ b1 ∧ b1 ≤ 0xBF) ∨
            (b = 0xED ∧ 0x80 ≤ b1 ∧ b1 ≤ 0x9F) ∨
            (0xEE ≤ b ∧ 0x80 ≤ b1 ∧ b1 ≤ 0xBF)) ∧
           0x80 ≤ b2 ∧ b2 ≤ 0xBF then
          (utf8DecodeF fuel l2).map
            (fun t => ((b - 0xE0) * 4096 + (b1 - 0x80) * 64 + (b2 - 0x80)) :: t)
        else none
      | _ => none
    else if 0xF0 ≤ b ∧ b ≤ 0xF4 then
      match l with
      | b1 :: b2 :: b3 :: l3 =>
        if ((b = 0xF0 ∧ 0x90 ≤ b1 ∧ b1 ≤ 0xBF) ∨
            (0xF1 ≤ b ∧ b ≤ 0xF3 ∧ 0x80 ≤ b1 ∧ b1 ≤ 0xBF) ∨
            (b = 0xF4 ∧ 0x80 ≤ b1 ∧ b1 ≤ 0x8F)) ∧
           (0x80 ≤ b2 ∧ b2 ≤ 0xBF) ∧ (0x80 ≤ b3 ∧ b3 ≤ 0xBF) then
          (utf8DecodeF fuel l3).map
            (fun t =>
              ((b - 0xF0) * 0x40000 + (b1 - 0x80) * 4096 +
               (b2 - 0x80) * 64 + (b3 - 0x80)) :: t)
        else none
      | _ => none
    else none

/-- Strict UTF-8 decoding (CPython bytes.decode as UTF-8): rejects overlong
forms, surrogates, code points above U+10FFFF, stray continuation bytes and
truncated sequences. -/
def utf8Decode (bs : Bytes) : Option (List Nat) := utf8DecodeF bs.length bs

/-- Drop the three UTF-8 byte-order-mark bytes when they lead the input
(the byte-level preprocessing done by the `utf-8-sig` codec). -/
def bomStrip (bs : Bytes) : Bytes :=
  match bs with
  | a :: b :: c :: rest => if a = 0xEF ∧ b = 0xBB ∧ c = 0xBF then rest else a :: b :: c :: rest
  | other => other

/-- CPython decoding as utf-8-sig: strip one leading BOM, then strict UTF-8. -/
def utf8SigDecode (bs : Bytes) : Option (List Nat) := utf8Decode (bomStrip bs)

/-- Dropping one leading BOM character from a text (what decoding with the
utf-8-sig candidate amounts to at the text level). -/
def charBomDrop : List Nat → List Nat
  | [] => []
  | c :: t => if c = 0xFEFF then t else c :: t

/-- CPython decoding as cp1252, one byte.  Bytes 0x00-0x7F and 0xA0-0xFF
map to themselves; 0x80-0x9F follow the Windows-1252 table; the five holes
0x81, 0x8D, 0x8F, 0x90, 0x9D raise UnicodeDecodeError (here: none). -/
def cp1252DecodeChar (b : Nat) : Option Nat :=
  if b = 0x80 then some 0x20AC
  else if b = 0x82 then some 0x201A
  else if b = 0x83 then some 0x0192
  else if b = 0x84 then some 0x201E
  else if b = 0x85 then some 0x2026
  else if b = 0x86 then some 0x2020
  else if b = 0x87 then some 0x2021
  else if b = 0x88 then some 0x02C6
  else if b = 0x89 then some 0x2030
  else if b = 0x8A then some 0x0160
  else if b = 0x8B then some 0x2039
  else if b = 0x8C then some 0x0152
  else if b = 0x8E then some 0x017D
  else if b = 0x91 then some 0x2018
  else if b = 0x92 then some 0x2019
  else if b = 0x93 then some 0x201C
  else if b = 0x94 then some 0x201D
  else if b = 0x95 then some 0x2022
  else if b = 0x96 then some 0x2013
  else if b = 0x97 then some 0x2014
  else if b = 0x98 then some 0x02DC
  else if b = 0x99 then some 0x2122
  else if b = 0x9A then some 0x0161
  else if b = 0x9B then some 0x203A
  else if b = 0x9C then some 0x0153
  else if b = 0x9E then some 0x017E
  else if b = 0x9F then some 0x0178
  else if b ≤ 0x7F ∨ (0xA0 ≤ b ∧ b ≤ 0xFF) then some b
  else none

/-- Apply a partial per-element map to a whole list, failing if any element fails. -/
def mapOption (f : Nat → Option Nat) : List Nat → Option (List Nat)
  | [] => some []
  | x :: l =>
    match f x with
    | some y => (mapOption f l).map (fun t => y :: t)
    | none => none

/-- CPython decoding as cp1252 on a whole byte string. -/
def cp1252Decode (bs : Bytes) : Option (List Nat) := mapOption cp1252DecodeChar bs

/-- The inverse Windows-1252 table, encoding one character as cp1252. -/
def cp1252EncodeChar (c : Nat) : Option Nat :=
  if c = 0x20AC then some 0x80
  else if c = 0x201A then some 0x82
  else if c = 0x0192 then some 0x83
  else if c = 0x201E then some 0x84
  else if c = 0x2026 then some 0x85
  else if c = 0x2020 then some 0x86
  else if c = 0x2021 then some 0x87
  else if c = 0x02C6 then some 0x88
  else if c = 0x2030 then some 0x89
  else if c = 0x0160 then some 0x8A
  else if c = 0x2039 then some 0x8B
  else if c = 0x0152 then some 0x8C
  else if c = 0x017D then some 0x8E
  else if c = 0x2018 then some 0x91
  else if c = 0x2019 then some 0x92
  else if c = 0x201C then some 0x93
  else if c = 0x201D then some 0x94
  else if c = 0x2022 then some 0x95
  else if c = 0x2013 then some 0x96
  else if c = 0x2014 then some 0x97
  else if c = 0x02DC then some 0x98
  else if c = 0x2122 then some 0x99
  else if c = 0x0161 then some 0x9A
  else if c = 0x203A then some 0x9B
  else if c = 0x0153 then some 0x9C
  else if c = 0x017E then some 0x9E
  else if c = 0x0178 then some 0x9F
  else if c ≤ 0x7F ∨ (0xA0 ≤ c ∧ c ≤ 0xFF) then some c
  else none

/-- Encoding a whole text as cp1252 (windows-1252 is the same codec). -/
def cp1252Encode (t : List Nat) : Option Bytes := mapOption cp1252EncodeChar t

/-- Encoding as latin-1: identity on code points below 256, error otherwise. -/
def latin1Encode (t : List Nat) : Option Bytes :=
  if t.all (fun c => c < 0x100) then some t else none

/-- Encoding as UTF-8: defined for texts of Unicode scalar values
(CPython raises on surrogates). -/
def utf8Encode (t : List Nat) : Option Bytes :=
  if t.all (fun c => decide (ValidScalar c)) then some (utf8Join t) else none

/-- Encoding as utf-8-sig: a BOM is prepended, then strict UTF-8. -/
def utf8SigEncode (t : List Nat) : Option Bytes :=
  (utf8Encode t).map (fun bs => 0xEF :: 0xBB :: 0xBF :: bs)

/-- The candidate encodings of `encodings_to_try` in
`create_temp_utf8_file` (source line 26), in order. -/
inductive CandidateEncoding where
  | utf8sig
  | utf8
  | latin1
  | cp1252
  | windows1252
deriving DecidableEq, Repr

/-- Encoding a text under one of the candidate encodings (what it means for a
bytes of a file to hold a text encoded under a given candidate). -/
def encodeWith : CandidateEncoding → List Nat → Option Bytes
  | .utf8sig, t => utf8SigEncode t
  | .utf8, t => utf8Encode t
  | .latin1, t => latin1Encode t
  | .cp1252, t => cp1252Encode t
  | .windows1252, t => cp1252Encode t

/-- Decoding bytes under one of the candidate encodings.  `latin-1` decoding is
total: every byte value maps to the code point of the same value. -/
def decodeWith : CandidateEncoding → Bytes → Option (List Nat)
  | .utf8sig, bs => utf8SigDecode bs
  | .utf8, bs => utf8Decode bs
  | .latin1, bs => some bs
  | .cp1252, bs => cp1252Decode bs
  | .windows1252, bs => cp1252Decode bs

/-- The list encodings_to_try of source line 26: utf-8-sig, utf-8, latin-1,
cp1252, windows-1252. -/
def encodings_to_try : List CandidateEncoding :=
  [.utf8sig, .utf8, .latin1, .cp1252, .windows1252]

/-- The decoding loop of `create_temp_utf8_file` (source lines 29-34): try each
candidate in order, keep the first that decodes without error. -/
def decodeLoopAux : List CandidateEncoding → Bytes → Option (List Nat)
  | [], _ => none
  | e :: es, bs =>
    match decodeWith e bs with
    | some t => some t
    | none => decodeLoopAux es bs

/-- First-successful-candidate decoding over `encodings_to_try`. -/
def decodeLoop (bs : Bytes) : Option (List Nat) := decodeLoopAux encodings_to_try bs

/-- The lossy latin-1 fallback of source line 38 (errors set to replace).  latin-1 maps every
byte, so no replacement character is ever substituted. -/
def latin1ReplaceDecode (bs : Bytes) : List Nat := bs

/-- The decoded content of the input file: the first success of the loop, or the
lossy latin-1 fallback when the whole loop fails (source lines 29-39). -/
def readContent (bs : Bytes) : List Nat :=
  match decodeLoop bs with
  | some t => t
  | none => latin1ReplaceDecode bs

/-- Universal-newline translation, fuelled so that the recursion is structural
in the fuel (a carriage-return line-feed pair consumes two elements). -/
def nlTranslateF : Nat → List Nat → List Nat
  | _, [] => []
  | 0, l => l
  | f + 1, c :: rest =>
    if c = 13 then
      match rest with
      | d :: rest2 =>
        if d = 10 then 10 :: nlTranslateF f rest2 else 10 :: nlTranslateF f (d :: rest2)
      | [] => [10]
    else c :: nlTranslateF f rest

/-- Universal-newline translation applied by text-mode reading: a carriage
return followed by a line feed, and a lone carriage return, both become a
line feed in the decoded stream. -/
def nlTranslate (l : List Nat) : List Nat := nlTranslateF l.length l

/-- Replacing a single-character needle by the empty string: every occurrence
is removed. -/
def pyRemoveAll (ch : Nat) (s : List Nat) : List Nat := s.filter (fun c => c ≠ ch)

/-- Source line 42: content.replace of U+009D with the empty string, then the
same for U+FEFF. -/
def stripChars (s : List Nat) : List Nat := pyRemoveAll 0xFEFF (pyRemoveAll 0x9D s)

/-- The text written to the scratch file by `create_temp_utf8_file` for an input
file whose bytes are `bs`: decode (with universal newlines), then strip the two
problematic characters.  The write back (text-mode, UTF-8)
is strict UTF-8 with identity newline translation on this platform. -/
def scratchText (bs : Bytes) : List Nat := stripChars (nlTranslate (readContent bs))

/-- The bytes of the scratch file. -/
def scratchBytes (bs : Bytes) : Bytes := utf8Join (scratchText bs)

/-! ## Filesystem model

The filesystem is an association list from paths to byte contents; the first
binding of a path wins.  Writing replaces an existing binding, removal deletes
it.  Directories are implicit in path strings.
-/

/-- The filesystem: existing files with their contents. -/
abbrev FS := List (Str × Bytes)

/-- Content of a file, `none` when the path does not exist. -/
def fsRead : FS → Str → Option Bytes
  | [], _ => none
  | e :: rest, p => if e.1 = p then some e.2 else fsRead rest p

/-- Delete a path (no-op when absent). -/
def fsRemove : FS → Str → FS
  | [], _ => []
  | e :: rest, p => if e.1 = p then fsRemove rest p else e :: fsRemove rest p

/-- Create or overwrite a file. -/
def fsWrite (fs : FS) (p : Str) (c : Bytes) : FS := (p, c) :: fsRemove fs p

/-- os.rename: move the content of src to dst (the source authority never
reaches this with a missing src; a missing src is left untouched here). -/
def fsRename (fs : FS) (src dst : Str) : FS :=
  match fsRead fs src with
  | some c => fsWrite (fsRemove fs src) dst c
  | none => fs

/-! ## Path handling (pathlib / os.path fragments used by the source) -/

/-- The last path component (pathlib Path.name): trailing slashes are ignored,
the part after the last remaining slash is the name. -/
def pathName (p : Str) : Str :=
  let q := (p.reverse.dropWhile (fun c => c = '/')).reverse
  (q.reverse.takeWhile (fun c => c ≠ '/')).reverse

/-- Index of the last dot of a name, if any. -/
def lastDotIdx (n : Str) : Option Nat :=
  let j := List.indexOf '.' n.reverse
  if j < n.length then some (n.length - 1 - j) else none

/-- pathlib Path.stem: the name up to its last dot, except that a dot at
position 0 or at the very end does not count as an extension separator. -/
def pathStem (p : Str) : Str :=
  let n := pathName p
  match lastDotIdx n with
  | some i => if 0 < i ∧ i + 1 < n.length then n.take i else n
  | none => n

/-- pathlib Path.parent: drop the last component; the parent of a bare name is
the dot directory, the parent of a root child is the root. -/
def pathParent (p : Str) : Str :=
  let q := (p.reverse.dropWhile (fun c => c = '/')).reverse
  if q.contains '/' then
    let r := (q.reverse.dropWhile (fun c => c ≠ '/')).reverse
    let r2 := (r.reverse.dropWhile (fun c => c = '/')).reverse
    if r2 = [] then ['/'] else r2
  else ['.']

/-- Source line 24: the scratch path, the original name prefixed with temp_
inside the parent directory of the original (pathlib join semantics: joining
onto the dot directory yields the bare name). -/
def tempPathOf (p : Str) : Str :=
  let par := pathParent p
  let nm := ("temp_".toList) ++ pathName p
  if par = ['.'] then nm
  else if par = ['/'] then '/' :: nm
  else par ++ '/' :: nm

/-- os.path.join for the two-argument uses in the source. -/
def pyJoin (d f : Str) : Str :=
  if f.head? = some '/' then f
  else if d = [] then f
  else if d.getLast? = some '/' then d ++ f
  else d ++ '/' :: f

/-- Whether a path matches the glob pattern dir/bundle--*.json: the star spans
any run (possibly empty) of non-separator characters. -/
def matchesBundleGlob (dir p : Str) : Bool :=
  let pre := dir ++ ('/' :: "bundle--".toList)
  let suf := ".json".toList
  pre.isPrefixOf p && suf.isSuffixOf p && decide (pre.length + suf.length ≤ p.length) &&
    ((p.drop pre.length).take (p.length - pre.length - suf.length)).all (fun c => c ≠ '/')

/-- glob.glob(os.path.join(output_dir, "bundle--*.json")) over the modelled
filesystem, in binding order. -/
def globBundles (dir : Str) (fs : FS) : List Str :=
  (fs.map Prod.fst).filter (matchesBundleGlob dir)

/-- Whether a path matches the glob pattern dir/*.txt used to discover input
files (source line 176). -/
def matchesTxtGlob (dir p : Str) : Bool :=
  let pre := dir ++ ['/']
  let suf := ".txt".toList
  pre.isPrefixOf p && suf.isSuffixOf p && decide (pre.length + suf.length ≤ p.length) &&
    ((p.drop pre.length).take (p.length - pre.length - suf.length)).all (fun c => c ≠ '/')

/-- The txt files of the input directory, in binding order. -/
def globTxt (dir : Str) (fs : FS) : List Str :=
  (fs.map Prod.fst).filter (matchesTxtGlob dir)

/-- Whether a bare (current-directory) path matches bundle--*.json
(the pattern of the leftover sweep, source line 236). -/
def matchesCwdBundleGlob (p : Str) : Bool :=
  let pre := "bundle--".toList
  let suf := ".json".toList
  pre.isPrefixOf p && suf.isSuffixOf p && decide (pre.length + suf.length ≤ p.length) &&
    p.all (fun c => c ≠ '/')

/-! ## The task runner: process_single_file

The external environment is a `World`: everything the program observes but does
not compute.  The program text of `process_single_file` (source lines 51-158)
is translated branch by branch against it.
-/

/-- Everything the environment decides during one task: whether scratch-file
creation throws (the generic except of source line 73: permissions, disk
errors, ...), the interpreter path, the exit status and stderr of the spawned
converter, the files the converter creates in its output directory, whether
os.rename throws (for example cross-device), and the outcome of the
best-effort json.load of the moved bundle (`none` models any exception in the
stats block; a missing objects key is `some 0` because the source uses
bundle_data.get with a default). -/
structure World where
  sysExecutable : Str
  tempFails : Bool
  subprocessExit : Nat
  subprocessStderr : Str
  created : List (Str × Bytes)
  renameFails : Bool
  parseObjects : Option Nat

/-- The arguments of process_single_file (source lines 51-52). -/
structure TaskArgs where
  txt_file_path : Str
  output_dir : Str
  mode_suffix : Str
  extractions : Option Str
  relationship_mode : Str
  ai_model : Option Str
  additional_args : List (Str × Option Str)

/-- Console output, abstracted to the events the claims mention. -/
inductive LogEvent where
  | tempWarning
  | subprocessFailed (file : Str) (stderr : Str)
  | noBundleFound
  | stderrText (s : Str)
  | success (path : Str)
  | objectCount (n : Nat)
  | unknownMode (tok : Str)
  | noValidModes
  | noTxtFiles
deriving DecidableEq, Repr

/-- What one call of process_single_file produces: the Python return value, or
an exception escaping the function (only subprocess.CalledProcessError and
UnicodeDecodeError are caught by the source; anything else propagates). -/
inductive TaskOutcome where
  | ret (success : Bool) (path : Option Str)
  | raised (msg : Str)
deriving DecidableEq, Repr

/-- Result of one embedded call: outcome, final filesystem, the constructed
command line, and the log events. -/
structure RunResult where
  outcome : TaskOutcome
  fs : FS
  cmd : List Str
  log : List LogEvent

/-- Source lines 22-48 as a filesystem action: write the normalized copy next
to the original and return its path. -/
def create_temp_utf8_file (fs : FS) (original_file : Str) : FS × Str :=
  let temp_file := tempPathOf original_file
  let content := scratchText ((fsRead fs original_file).getD [])
  (fsWrite fs temp_file (utf8Join content), temp_file)

/-- The command of source lines 81-101.  Pythonic truthiness: an optional
string argument is forwarded only when present and non-empty. -/
def buildCmd (w : World) (a : TaskArgs) (txt_file_to_use : Str) : List Str :=
  let file_name := pathStem a.txt_file_path
  [w.sysExecutable, "txt2stix.py".toList,
   "--input_file".toList, txt_file_to_use,
   "--name".toList, file_name.take 72,
   "--relationship_mode".toList, a.relationship_mode]
  ++ (match a.extractions with
      | some e => if e ≠ [] then ["--use_extractions".toList, e] else []
      | none => [])
  ++ (match a.ai_model with
      | some m =>
        if m ≠ [] ∧ a.relationship_mode = "ai".toList then
          ["--ai_settings_extractions".toList, m, "--ai_settings_relationships".toList, m]
        else []
      | none => [])
  ++ (a.additional_args.map (fun kv =>
        match kv.2 with
        | some v => [('-' :: '-' :: kv.1 : Str), v]
        | none => [])).flatten

/-- The fixed output directory of the external tool (source line 105). -/
def txt2stixOutputDir : Str := "output".toList

/-- Whether the scratch file was created without an exception (temp_file is
not None after source lines 69-75): the environment did not fault and the
original file was openable. -/
def tempCreated (w : World) (a : TaskArgs) (fs0 : FS) : Bool :=
  !w.tempFails && (fsRead fs0 a.txt_file_path).isSome

/-- The filesystem after the scratch-creation step. -/
def fsAfterTemp (w : World) (a : TaskArgs) (fs0 : FS) : FS :=
  if tempCreated w a fs0 then (create_temp_utf8_file fs0 a.txt_file_path).1 else fs0

/-- The input actually passed to the converter (source lines 72, 75). -/
def txtFileToUse (w : World) (a : TaskArgs) (fs0 : FS) : Str :=
  if tempCreated w a fs0 then tempPathOf a.txt_file_path else a.txt_file_path

/-- The pre-invocation snapshot of the bundle files (source line 106). -/
def bundleSnapshot (w : World) (a : TaskArgs) (fs0 : FS) : List Str :=
  globBundles txt2stixOutputDir (fsAfterTemp w a fs0)

/-- The filesystem after the subprocess ran: the converter created its files.
The 0.5 second delay of source line 113 has no content in this model. -/
def fsAfterRun (w : World) (a : TaskArgs) (fs0 : FS) : FS :=
  w.created.foldl (fun fs pc => fsWrite fs pc.1 pc.2) (fsAfterTemp w a fs0)

/-- Source lines 15-19: rescan the output directory and keep the files absent
from the snapshot; the first new file, if any. -/
def find_new_bundle_file (existing_files : List Str) (fs : FS) (output_dir : Str) : Option Str :=
  let current_files := globBundles output_dir fs
  let new_files := current_files.filter (fun p => !(existing_files.contains p))
  new_files.head?

/-- The new bundle files of this invocation, in scan order. -/
def newBundlesList (w : World) (a : TaskArgs) (fs0 : FS) : List Str :=
  (globBundles txt2stixOutputDir (fsAfterRun w a fs0)).filter
    (fun p => !((bundleSnapshot w a fs0).contains p))

/-- The discovery step of source line 116. -/
def discovered (w : World) (a : TaskArgs) (fs0 : FS) : Option Str :=
  find_new_bundle_file (bundleSnapshot w a fs0) (fsAfterRun w a fs0) txt2stixOutputDir

/-- The target path of source lines 120-121. -/
def outputPathOf (a : TaskArgs) : Str :=
  pyJoin a.output_dir (pathStem a.txt_file_path ++ a.mode_suffix ++ (".json".toList))

/-- The finally block of source lines 152-158: delete the scratch file when it
was created and still exists (deletion errors are suppressed; in this model
deleting an existing path always succeeds). -/
def cleanupTemp (w : World) (a : TaskArgs) (fs0 : FS) (fs : FS) : FS :=
  if tempCreated w a fs0 then
    if (fsRead fs (tempPathOf a.txt_file_path)).isSome then
      fsRemove fs (tempPathOf a.txt_file_path)
    else fs
  else fs

/-- Source lines 51-158, branch by branch: scratch creation (with the fallback
to the original path on failure), command construction, snapshot, subprocess
(a non-zero exit raises subprocess.CalledProcessError, caught at line 143),
rescan, rename (an os.rename error is caught by no except clause and escapes),
best-effort stats, and the guaranteed cleanup on every path. -/
def process_single_file (w : World) (a : TaskArgs) (fs0 : FS) : RunResult :=
  if w.subprocessExit ≠ 0 then
    { outcome := .ret false none,
      fs := cleanupTemp w a fs0 (fsAfterRun w a fs0),
      cmd := buildCmd w a (txtFileToUse w a fs0),
      log := (if tempCreated w a fs0 then [] else [.tempWarning]) ++
        [.subprocessFailed a.txt_file_path w.subprocessStderr] }
  else
    match discovered w a fs0 with
    | none =>
      { outcome := .ret false none,
        fs := cleanupTemp w a fs0 (fsAfterRun w a fs0),
        cmd := buildCmd w a (txtFileToUse w a fs0),
        log := (if tempCreated w a fs0 then [] else [.tempWarning]) ++ [.noBundleFound] ++
          (if w.subprocessStderr ≠ [] then [.stderrText w.subprocessStderr] else []) }
    | some bundle_file =>
      if w.renameFails then
        { outcome := .raised ("OSError".toList),
          fs := cleanupTemp w a fs0 (fsAfterRun w a fs0),
          cmd := buildCmd w a (txtFileToUse w a fs0),
          log := (if tempCreated w a fs0 then [] else [.tempWarning]) }
      else
        { outcome := .ret true (some (outputPathOf a)),
          fs := cleanupTemp w a fs0 (fsRename (fsAfterRun w a fs0) bundle_file (outputPathOf a)),
          cmd := buildCmd w a (txtFileToUse w a fs0),
          log := (if tempCreated w a fs0 then [] else [.tempWarning]) ++
            [.success (outputPathOf a)] ++
            (match w.parseObjects with
             | some n => [.objectCount n]
             | none => []) }

/-! ## The batch driver: batch_process_multimode (source lines 161-243) -/

/-- A processing mode: (mode_suffix, relationship_mode, ai_model). -/
abbrev Mode := Str × Str × Option Str

/-- Aggregate outcome of a batch run.  `aborted` records that an exception
escaped a task and hence the whole loop (nothing in the driver catches it). -/
structure BatchResult where
  aborted : Bool
  successCount : Nat
  failed : List (Str × Str)
  executed : Nat
  fs : FS
  log : List LogEvent

/-- The TaskArgs the driver builds for one (file, mode) pair (source
lines 202-210). -/
def mkTaskArgs (f : Str) (output_dir : Str) (m : Mode) (extractions : Option Str)
    (additional_args : List (Str × Option Str)) : TaskArgs :=
  { txt_file_path := f
    output_dir := output_dir
    mode_suffix := m.1
    extractions := extractions
    relationship_mode := m.2.1
    ai_model := m.2.2
    additional_args := additional_args }

/-- The nested loops of source lines 194-215, sequential, one world per task
index.  An uncaught exception from a task stops everything: remaining tasks do
not run and the failure is not recorded in `failed`. -/
def runTasksAux (ws : Nat → World) (output_dir : Str) (extractions : Option Str)
    (additional_args : List (Str × Option Str)) :
    List (Str × Mode) → Nat → Nat → List (Str × Str) → FS → List LogEvent → BatchResult
  | [], idx, succ, failed, fs, log =>
    { aborted := false, successCount := succ, failed := failed, executed := idx,
      fs := fs, log := log }
  | (f, m) :: rest, idx, succ, failed, fs, log =>
    match (process_single_file (ws idx) (mkTaskArgs f output_dir m extractions additional_args) fs).outcome with
    | .raised _ =>
      { aborted := true, successCount := succ, failed := failed, executed := idx + 1,
        fs := (process_single_file (ws idx) (mkTaskArgs f output_dir m extractions additional_args) fs).fs,
        log := log ++ (process_single_file (ws idx) (mkTaskArgs f output_dir m extractions additional_args) fs).log }
    | .ret true _ =>
      runTasksAux ws output_dir extractions additional_args rest (idx + 1) (succ + 1)
        failed (process_single_file (ws idx) (mkTaskArgs f output_dir m extractions additional_args) fs).fs
        (log ++ (process_single_file (ws idx) (mkTaskArgs f output_dir m extractions additional_args) fs).log)
    | .ret false _ =>
      runTasksAux ws output_dir extractions additional_args rest (idx + 1) succ
        (failed ++ [(f, m.1)])
        (process_single_file (ws idx) (mkTaskArgs f output_dir m extractions additional_args) fs).fs
        (log ++ (process_single_file (ws idx) (mkTaskArgs f output_dir m extractions additional_args) fs).log)

/-- Source lines 234-243: best-effort sweep of leftover bundle files in the
current working directory (individual deletion failures are ignored; in this
model deletion succeeds). -/
def cleanup_bundle_files (fs : FS) : FS :=
  fs.filter (fun e => !(matchesCwdBundleGlob e.1))

/-- Source lines 161-231: discover the txt files, run every (file, mode) task
sequentially, then sweep leftovers and report.  When a task raises, the
exception propagates out of the driver: the sweep and the statistics do not
run. -/
def batch_process_multimode (ws : Nat → World) (input_dir output_dir : Str)
    (processing_modes : List Mode) (extractions : Option Str)
    (additional_args : List (Str × Option Str)) (fs0 : FS) : BatchResult :=
  let txt_files := globTxt input_dir fs0
  if txt_files = [] then
    { aborted := false, successCount := 0, failed := [], executed := 0,
      fs := fs0, log := [.noTxtFiles] }
  else
    let tasks := (txt_files.map (fun f => processing_modes.map (fun m => (f, m)))).flatten
    let r := runTasksAux ws output_dir extractions additional_args tasks 0 0 [] fs0 []
    if r.aborted then r else { r with fs := cleanup_bundle_files r.fs }

/-! ## The command-line surface: main (source lines 246-344) -/

/-- The whitespace characters stripped by the Python str.strip method. -/
def pyIsSpace (c : Char) : Bool :=
  [9, 10, 11, 12, 13, 28, 29, 30, 31, 32, 0x85, 0xA0, 0x1680,
   0x2000, 0x2001, 0x2002, 0x2003, 0x2004, 0x2005, 0x2006, 0x2007,
   0x2008, 0x2009, 0x200A, 0x2028, 0x2029, 0x202F, 0x205F, 0x3000].contains c.toNat

/-- str.strip with no argument: drop leading and trailing whitespace. -/
def pyStrip (s : Str) : Str :=
  ((s.dropWhile pyIsSpace).reverse.dropWhile pyIsSpace).reverse

/-- str.lower, restricted to what mode matching can observe: ASCII letters are
lowered, and the Kelvin sign (the only non-ASCII code point whose lower case
is a single ASCII letter) maps to the letter k.  Every other code point is kept;
none of them lowers to an ASCII string, so matching against the ASCII preset
keys is unaffected. -/
def pyLowerChar (c : Char) : Char :=
  if 'A' ≤ c ∧ c ≤ 'Z' then Char.ofNat (c.toNat + 32)
  else if c.toNat = 0x212A then 'k'
  else c

/-- str.lower on a whole token. -/
def pyLower (s : Str) : Str := s.map pyLowerChar

/-- str.split with a one-character separator: every separator splits, empty
pieces are kept, the empty string yields one empty piece. -/
def pySplitAux (sep : Char) : Str → Str → List Str
  | [], acc => [acc.reverse]
  | c :: rest, acc =>
    if c = sep then acc.reverse :: pySplitAux sep rest []
    else pySplitAux sep rest (c :: acc)

/-- str.split on one separator character. -/
def pySplit (sep : Char) (s : Str) : List Str := pySplitAux sep s []

/-- Decimal digits of a natural number, fuelled so that the recursion is
structural (one digit per fuel step; the fuel below never runs out). -/
def natToStrF : Nat → Nat → Str
  | 0, _ => []
  | f + 1, n =>
    if n < 10 then [Char.ofNat (48 + n)]
    else natToStrF f (n / 10) ++ [Char.ofNat (48 + n % 10)]

/-- Decimal digits of a natural number. -/
def natToStr (n : Nat) : Str := natToStrF (n + 1) n

/-- Python str of an integer. -/
def intToStr (i : Int) : Str :=
  if i < 0 then '-' :: natToStr i.natAbs else natToStr i.natAbs

/-- The parsed command line of source lines 279-294 (argparse guarantees
tlp_level is one of its five choices and defaults it to clear; confidence and
labels default to None). -/
structure Args where
  input_dir : Str
  output_dir : Str
  modes : Str
  extractions : Option Str
  tlp_level : Str
  confidence : Option Int
  labels : Option Str

/-- The PRESET_MODES table of source lines 248-255. -/
def PRESET_MODES (s : Str) : Option Mode :=
  if s = "standard".toList then
    some ("_txt2stix+standard".toList, "standard".toList, none)
  else if s = "gpt4o".toList then
    some ("_txt2stix+gpt4o".toList, "ai".toList, some ("openai:gpt-4o".toList))
  else if s = "gpt4o-mini".toList then
    some ("_txt2stix+gpt4o-mini".toList, "ai".toList, some ("openai:gpt-4o-mini".toList))
  else if s = "claude".toList then
    some ("_txt2stix+claude".toList, "ai".toList, some ("anthropic:claude-3-5-sonnet-latest".toList))
  else if s = "gemini".toList then
    some ("_txt2stix+gemini".toList, "ai".toList, some ("gemini:models/gemini-1.5-pro-latest".toList))
  else if s = "deepseek".toList then
    some ("_txt2stix+deepseek".toList, "ai".toList, some ("deepseek:deepseek-chat".toList))
  else none

/-- mode_name.strip().lower() of source line 301. -/
def normalizeModeToken (t : Str) : Str := pyLower (pyStrip t)

/-- The mode-selection loop of source lines 299-305 over the already split
token list: matching tokens contribute their preset in order, unknown tokens
contribute a warning. -/
def parseModesList : List Str → List Mode × List LogEvent
  | [] => ([], [])
  | tok :: rest =>
    match PRESET_MODES (normalizeModeToken tok) with
    | some pm => (pm :: (parseModesList rest).1, (parseModesList rest).2)
    | none =>
      ((parseModesList rest).1,
       .unknownMode (normalizeModeToken tok) :: (parseModesList rest).2)

/-- Splitting the --modes value on commas and running the selection loop. -/
def parseSelectedModes (modesStr : Str) : List Mode × List LogEvent :=
  parseModesList (pySplit ',' modesStr)

/-- Source lines 311-318.  Pythonic truthiness throughout: tlp_level is
forwarded when different from clear, confidence when present and non-zero,
labels when present and non-empty.  The str conversion of source line 101 is
applied here to the integer. -/
def buildAdditionalArgs (a : Args) : List (Str × Option Str) :=
  (if a.tlp_level ≠ "clear".toList then [("tlp_level".toList, some a.tlp_level)] else [])
  ++ (match a.confidence with
      | some c => if c ≠ 0 then [("confidence".toList, some (intToStr c))] else []
      | none => [])
  ++ (match a.labels with
      | some l => if l ≠ [] then [("labels".toList, some l)] else []
      | none => [])

/-- The outcome of main: either the early error return of source lines 307-309
(no valid modes: nothing runs, the filesystem is untouched), or a batch run. -/
structure MainResult where
  ranBatch : Bool
  batch : Option BatchResult
  fs : FS
  log : List LogEvent

/-- Source lines 246-344 (the epilog text, the AI-credential notes and the
argparse plumbing are pure printing and are not modelled). -/
def main (ws : Nat → World) (args : Args) (fs0 : FS) : MainResult :=
  let sel := parseSelectedModes args.modes
  if sel.1 = [] then
    { ranBatch := false, batch := none, fs := fs0, log := sel.2 ++ [.noValidModes] }
  else
    let additional_args := buildAdditionalArgs args
    let r := batch_process_multimode ws args.input_dir args.output_dir sel.1
      args.extractions additional_args fs0
    { ranBatch := true, batch := some r, fs := r.fs, log := sel.2 ++ r.log }

/-! ## Concrete instances used to exercise the model -/

/-- A benign environment: scratch creation works, the converter exits zero and
writes one fresh bundle artifact, the rename succeeds, the bundle parses. -/
def sampleWorldOk : World :=
  { sysExecutable := ("python").toList, tempFails := false, subprocessExit := 0,
    subprocessStderr := [], created := [(("output/bundle--r1.json").toList, [1, 2])],
    renameFails := false, parseObjects := some 2 }

/-- The benign environment except that the converter creates no file. -/
def sampleWorldNoBundle : World := { sampleWorldOk with created := [] }

/-- The benign environment except that os.rename raises. -/
def sampleWorldRenameFails : World := { sampleWorldOk with renameFails := true }

/-- One task: a text file in directory in, standard mode, output to out. -/
def sampleArgs : TaskArgs :=
  { txt_file_path := ("in/report.txt").toList, output_dir := ("out").toList,
    mode_suffix := ("_txt2stix+standard").toList, extractions := none,
    relationship_mode := ("standard").toList, ai_model := none, additional_args := [] }

/-- A filesystem holding just that input file. -/
def sampleFS : FS := [(("in/report.txt").toList, [104, 105])]

/-- A batch environment: the first task faults in the rename, every later task
is benign. -/
def sampleBatchWorlds : Nat → World := fun i =>
  if i = 0 then sampleWorldRenameFails else sampleWorldOk

/-- Two input files, so the batch has two tasks under one mode. -/
def sampleBatchFS : FS := [(("in/a.txt").toList, [65]), (("in/b.txt").toList, [66])]

/-- The standard preset as the only selected mode. -/
def sampleModes : List Mode := [(("_txt2stix+standard").toList, ("standard").toList, none)]

/-- A command line whose mode list holds no known preset token. -/
def sampleArgsUnknownModes : Args :=
  { input_dir := ("in").toList, output_dir := ("out").toList, modes := ("foo,bar").toList,
    extractions := none, tlp_level := ("clear").toList, confidence := none, labels := none }

/-- A command line passing a confidence score of zero. -/
def sampleArgsConfidenceZero : Args :=
  { sampleArgsUnknownModes with modes := ("standard").toList, confidence := some 0 }

/-! ## Lemmas about the filesystem model -/

theorem fsRead_write_self (fs : FS) (p : Str) (c : Bytes) :
    fsRead (fsWrite fs p c) p = some c := by
  simp [fsWrite, fsRead]

theorem fsRead_remove_ne (fs : FS) (p q : Str) (h : q ≠ p) :
    fsRead (fsRemove fs p) q = fsRead fs q := by
  induction fs with
  | nil => rfl
  | cons e rest ih =>
    simp only [fsRemove, fsRead]
    by_cases he : e.1 = p
    · rw [if_pos he, if_neg (fun hc : e.1 = q => h (hc.symm.trans he))]
      exact ih
    · rw [if_neg he]
      by_cases hq : e.1 = q
      · simp only [fsRead]
        rw [if_pos hq, if_pos hq]
      · simp only [fsRead]
        rw [if_neg hq, if_neg hq]
        exact ih

theorem fsRead_remove_self (fs : FS) (p : Str) :
    fsRead (fsRemove fs p) p = none := by
  induction fs with
  | nil => rfl
  | cons e rest ih =>
    by_cases he : e.1 = p
    · simpa [fsRemove, fsRead, he] using ih
    · simpa [fsRemove, fsRead, he] using ih

theorem fsRead_remove_of_none (fs : FS) (p q : Str) (h : fsRead fs q = none) :
    fsRead (fsRemove fs p) q = none := by
  by_cases hq : q = p
  · rw [hq]; exact fsRead_remove_self fs p
  · rw [fsRead_remove_ne fs p q hq]; exact h

theorem fsRead_write_ne (fs : FS) (p q : Str) (c : Bytes) (h : q ≠ p) :
    fsRead (fsWrite fs p c) q = fsRead fs q := by
  simp only [fsWrite, fsRead]
  rw [if_neg (fun hc : p = q => h hc.symm)]
  exact fsRead_remove_ne fs p q h

theorem fsRead_isSome_of_mem (fs : FS) (p : Str) (h : p ∈ fs.map Prod.fst) :
    (fsRead fs p).isSome := by
  induction fs with
  | nil => simp at h
  | cons e rest ih =>
    simp only [List.map_cons, List.mem_cons] at h
    by_cases he : e.1 = p
    · simp [fsRead, he]
    · rcases h with h | h
      · exact absurd h.symm he
      · simpa [fsRead, he] using ih h

/-! ## Lemmas about the codecs and the normalization pipeline -/

theorem utf8DecodeF_nil (f : Nat) : utf8DecodeF f [] = some [] := by
  cases f <;> rfl

theorem utf8DecodeF_cons (fuel : Nat) (b : Nat) (l : Bytes) :
    utf8DecodeF (fuel + 1) (b :: l) =
    (if b ≤ 0x7F then
      (utf8DecodeF fuel l).map (fun t => b :: t)
    else if 0xC2 ≤ b ∧ b ≤ 0xDF then
      match l with
      | b1 :: l1 =>
        if 0x80 ≤ b1 ∧ b1 ≤ 0xBF then
          (utf8DecodeF fuel l1).map (fun t => ((b - 0xC0) * 64 + (b1 - 0x80)) :: t)
        else none
      | [] => none
    else if 0xE0 ≤ b ∧ b ≤ 0xEF then
      match l with
      | b1 :: b2 :: l2 =>
        if ((b = 0xE0 ∧ 0xA0 ≤ b1 ∧ b1 ≤ 0xBF) ∨
            (0xE1 ≤ b ∧ b ≤ 0xEC ∧ 0x80 ≤ b1 ∧ b1 ≤ 0xBF) ∨
            (b = 0xED ∧ 0x80 ≤ b1 ∧ b1 ≤ 0x9F) ∨
            (0xEE ≤ b ∧ 0x80 ≤ b1 ∧ b1 ≤ 0xBF)) ∧
           0x80 ≤ b2 ∧ b2 ≤ 0xBF then
          (utf8DecodeF fuel l2).map
            (fun t => ((b - 0xE0) * 4096 + (b1 - 0x80) * 64 + (b2 - 0x80)) :: t)
        else none
      | _ => none
    else if 0xF0 ≤ b ∧ b ≤ 0xF4 then
      match l with
      | b1 :: b2 :: b3 :: l3 =>
        if ((b = 0xF0 ∧ 0x90 ≤ b1 ∧ b1 ≤ 0xBF) ∨
            (0xF1 ≤ b ∧ b ≤ 0xF3 ∧ 0x80 ≤ b1 ∧ b1 ≤ 0xBF) ∨
            (b = 0xF4 ∧ 0x80 ≤ b1 ∧ b1 ≤ 0x8F)) ∧
           (0x80 ≤ b2 ∧ b2 ≤ 0xBF) ∧ (0x80 ≤ b3 ∧ b3 ≤ 0xBF) then
          (utf8DecodeF fuel l3).map
            (fun t =>
              ((b - 0xF0) * 0x40000 + (b1 - 0x80) * 4096 +
               (b2 - 0x80) * 64 + (b3 - 0x80)) :: t)
        else none
      | _ => none
    else none) := rfl

theorem utf8DecodeF_fuel (f1 : Nat) : ∀ (bs : Bytes) (f2 : Nat),
    bs.length ≤ f1 → bs.length ≤ f2 → utf8DecodeF f1 bs = utf8DecodeF f2 bs := by
  induction f1 with
  | zero =>
    intro bs f2 h1 h2
    have hb : bs = [] := List.eq_nil_of_length_eq_zero (Nat.le_zero.mp h1)
    subst hb
    rw [utf8DecodeF_nil, utf8DecodeF_nil]
  | succ g ih =>
    intro bs f2 h1 h2
    cases bs with
    | nil => rw [utf8DecodeF_nil, utf8DecodeF_nil]
    | cons b l =>
      cases f2 with
      | zero => simp at h2
      | succ g2 =>
        simp only [List.length_cons] at h1 h2
        rw [utf8DecodeF_cons, utf8DecodeF_cons]
        by_cases c1 : b ≤ 0x7F
        · rw [if_pos c1, if_pos c1, ih l g2 (by omega) (by omega)]
        · rw [if_neg c1, if_neg c1]
          by_cases c2 : 0xC2 ≤ b ∧ b ≤ 0xDF
          · rw [if_pos c2, if_pos c2]
            cases l with
            | nil => rfl
            | cons b1 l1 =>
              simp only [List.length_cons] at h1 h2
              by_cases c3 : 0x80 ≤ b1 ∧ b1 ≤ 0xBF
              · simp only [if_pos c3]
                rw [ih l1 g2 (by omega) (by omega)]
              · simp only [if_neg c3]
          · rw [if_neg c2, if_neg c2]
            by_cases c4 : 0xE0 ≤ b ∧ b ≤ 0xEF
            · rw [if_pos c4, if_pos c4]
              match l with
              | [] => rfl
              | [b1] => rfl
              | b1 :: b2 :: l2 =>
                simp only [List.length_cons] at h1 h2
                by_cases c5 : ((b = 0xE0 ∧ 0xA0 ≤ b1 ∧ b1 ≤ 0xBF) ∨
                    (0xE1 ≤ b ∧ b ≤ 0xEC ∧ 0x80 ≤ b1 ∧ b1 ≤ 0xBF) ∨
                    (b = 0xED ∧ 0x80 ≤ b1 ∧ b1 ≤ 0x9F) ∨
                    (0xEE ≤ b ∧ 0x80 ≤ b1 ∧ b1 ≤ 0xBF)) ∧
                   0x80 ≤ b2 ∧ b2 ≤ 0xBF
                · simp only [if_pos c5]
                  rw [ih l2 g2 (by omega) (by omega)]
                · simp only [if_neg c5]
            · rw [if_neg c4, if_neg c4]
              by_cases c6 : 0xF0 ≤ b ∧ b ≤ 0xF4
              · rw [if_pos c6, if_pos c6]
                match l with
                | [] => rfl
                | [b1] => rfl
                | [b1, b2] => rfl
                | b1 :: b2 :: b3 :: l3 =>
                  simp only [List.length_cons] at h1 h2
                  by_cases c7 : ((b = 0xF0 ∧ 0x90 ≤ b1 ∧ b1 ≤ 0xBF) ∨
                      (0xF1 ≤ b ∧ b ≤ 0xF3 ∧ 0x80 ≤ b1 ∧ b1 ≤ 0xBF) ∨
                      (b = 0xF4 ∧ 0x80 ≤ b1 ∧ b1 ≤ 0x8F)) ∧
                     (0x80 ≤ b2 ∧ b2 ≤ 0xBF) ∧ (0x80 ≤ b3 ∧ b3 ≤ 0xBF)
                  · simp only [if_pos c7]
                    rw [ih l3 g2 (by omega) (by omega)]
                  · simp only [if_neg c7]
              · rw [if_neg c6, if_neg c6]


theorem utf8Decode_eq_decodeF (bs : Bytes) (f : Nat) (h : bs.length ≤ f) :
    utf8Decode bs = utf8DecodeF f bs :=
  utf8DecodeF_fuel bs.length bs f le_rfl h

theorem utf8Decode_encodeChar_append (c : Nat) (h : ValidScalar c) (rest : Bytes) :
    utf8Decode (utf8EncodeChar c ++ rest) = (utf8Decode rest).map (fun t => c :: t) := by
  obtain ⟨h1, h2⟩ := h
  by_cases hA : c < 0x80
  · rw [show utf8EncodeChar c = [c] from by rw [utf8EncodeChar, if_pos hA]]
    rw [List.singleton_append]
    unfold utf8Decode
    rw [List.length_cons, utf8DecodeF_cons, if_pos (by omega : c ≤ 0x7F)]
  · by_cases hB : c < 0x800
    · rw [show utf8EncodeChar c = [0xC0 + c / 64, 0x80 + c % 64] from by
        rw [utf8EncodeChar, if_neg hA, if_pos hB]]
      rw [List.cons_append, List.singleton_append]
      unfold utf8Decode
      rw [List.length_cons, List.length_cons, utf8DecodeF_cons]
      rw [if_neg (by omega : ¬ (0xC0 + c / 64 ≤ 0x7F))]
      rw [if_pos (by omega : 0xC2 ≤ 0xC0 + c / 64 ∧ 0xC0 + c / 64 ≤ 0xDF)]
      dsimp only
      rw [if_pos (by omega : 0x80 ≤ 0x80 + c % 64 ∧ 0x80 + c % 64 ≤ 0xBF)]
      rw [show (0xC0 + c / 64 - 0xC0) * 64 + (0x80 + c % 64 - 0x80) = c from by omega]
      rw [utf8DecodeF_fuel (rest.length + 1) rest rest.length (by omega) le_rfl]
    · by_cases hC : c < 0x10000
      · rw [show utf8EncodeChar c = [0xE0 + c / 4096, 0x80 + (c / 64) % 64, 0x80 + c % 64] from by
          rw [utf8EncodeChar, if_neg hA, if_neg hB, if_pos hC]]
        rw [List.cons_append, List.cons_append, List.singleton_append]
        unfold utf8Decode
        rw [List.length_cons, List.length_cons, List.length_cons, utf8DecodeF_cons]
        rw [if_neg (by omega : ¬ (0xE0 + c / 4096 ≤ 0x7F))]
        rw [if_neg (by omega : ¬ (0xC2 ≤ 0xE0 + c / 4096 ∧ 0xE0 + c / 4096 ≤ 0xDF))]
        rw [if_pos (by omega : 0xE0 ≤ 0xE0 + c / 4096 ∧ 0xE0 + c / 4096 ≤ 0xEF)]
        dsimp only
        rw [if_pos (by omega :
          ((0xE0 + c / 4096 = 0xE0 ∧ 0xA0 ≤ 0x80 + (c / 64) % 64 ∧ 0x80 + (c / 64) % 64 ≤ 0xBF) ∨
           (0xE1 ≤ 0xE0 + c / 4096 ∧ 0xE0 + c / 4096 ≤ 0xEC ∧
              0x80 ≤ 0x80 + (c / 64) % 64 ∧ 0x80 + (c / 64) % 64 ≤ 0xBF) ∨
           (0xE0 + c / 4096 = 0xED ∧ 0x80 ≤ 0x80 + (c / 64) % 64 ∧ 0x80 + (c / 64) % 64 ≤ 0x9F) ∨
           (0xEE ≤ 0xE0 + c / 4096 ∧ 0x80 ≤ 0x80 + (c / 64) % 64 ∧ 0x80 + (c / 64) % 64 ≤ 0xBF)) ∧
          0x80 ≤ 0x80 + c % 64 ∧ 0x80 + c % 64 ≤ 0xBF)]
        rw [show (0xE0 + c / 4096 - 0xE0) * 4096 + (0x80 + (c / 64) % 64 - 0x80) * 64 +
              (0x80 + c % 64 - 0x80) = c from by omega]
        rw [utf8DecodeF_fuel (rest.length + 1 + 1) rest rest.length (by omega) le_rfl]
      · rw [show utf8EncodeChar c =
              [0xF0 + c / 0x40000, 0x80 + (c / 4096) % 64, 0x80 + (c / 64) % 64, 0x80 + c % 64] from by
          rw [utf8EncodeChar, if_neg hA, if_neg hB, if_neg hC]]
        rw [List.cons_append, List.cons_append, List.cons_append, List.singleton_append]
        unfold utf8Decode
        rw [List.length_cons, List.length_cons, List.length_cons, List.length_cons, utf8DecodeF_cons]
        rw [if_neg (by omega : ¬ (0xF0 + c / 0x40000 ≤ 0x7F))]
        rw [if_neg (by omega : ¬ (0xC2 ≤ 0xF0 + c / 0x40000 ∧ 0xF0 + c / 0x40000 ≤ 0xDF))]
        rw [if_neg (by omega : ¬ (0xE0 ≤ 0xF0 + c / 0x40000 ∧ 0xF0 + c / 0x40000 ≤ 0xEF))]
        rw [if_pos (by omega : 0xF0 ≤ 0xF0 + c / 0x40000 ∧ 0xF0 + c / 0x40000 ≤ 0xF4)]
        dsimp only
        rw [if_pos (by omega :
          ((0xF0 + c / 0x40000 = 0xF0 ∧ 0x90 ≤ 0x80 + (c / 4096) % 64 ∧ 0x80 + (c / 4096) % 64 ≤ 0xBF) ∨
           (0xF1 ≤ 0xF0 + c / 0x40000 ∧ 0xF0 + c / 0x40000 ≤ 0xF3 ∧
              0x80 ≤ 0x80 + (c / 4096) % 64 ∧ 0x80 + (c / 4096) % 64 ≤ 0xBF) ∨
           (0xF0 + c / 0x40000 = 0xF4 ∧ 0x80 ≤ 0x80 + (c / 4096) % 64 ∧ 0x80 + (c / 4096) % 64 ≤ 0x8F)) ∧
          (0x80 ≤ 0x80 + (c / 64) % 64 ∧ 0x80 + (c / 64) % 64 ≤ 0xBF) ∧
          (0x80 ≤ 0x80 + c % 64 ∧ 0x80 + c % 64 ≤ 0xBF))]
        rw [show (0xF0 + c / 0x40000 - 0xF0) * 0x40000 + (0x80 + (c / 4096) % 64 - 0x80) * 4096 +
              (0x80 + (c / 64) % 64 - 0x80) * 64 + (0x80 + c % 64 - 0x80) = c from by omega]
        rw [utf8DecodeF_fuel (rest.length + 1 + 1 + 1) rest rest.length (by omega) le_rfl]

theorem utf8Decode_utf8Join (T : List Nat) (h : ∀ c ∈ T, ValidScalar c) :
    utf8Decode (utf8Join T) = some T := by
  induction T with
  | nil => rfl
  | cons c t ih =>
    have hc : ValidScalar c := h c (List.mem_cons_self c t)
    have ht : ∀ x ∈ t, ValidScalar x := fun x hx => h x (List.mem_cons_of_mem c hx)
    rw [show utf8Join (c :: t) = utf8EncodeChar c ++ utf8Join t from by
      simp [utf8Join]]
    rw [utf8Decode_encodeChar_append c hc, ih ht]
    rfl


theorem utf8Join_cons (c : Nat) (t : List Nat) :
    utf8Join (c :: t) = utf8EncodeChar c ++ utf8Join t := by
  simp [utf8Join]

theorem bomStrip_cons3 (a b c : Nat) (r : Bytes) :
    bomStrip (a :: b :: c :: r) =
      if a = 0xEF ∧ b = 0xBB ∧ c = 0xBF then r else a :: b :: c :: r := rfl

theorem bomStrip_head_ne (l : Bytes) (h : ∀ x ∈ l.head?, x ≠ 0xEF) : bomStrip l = l := by
  match l with
  | [] => rfl
  | [a] => rfl
  | [a, b] => rfl
  | a :: b :: c :: r =>
    rw [bomStrip_cons3, if_neg]
    intro hc
    exact h a rfl hc.1

theorem bomStrip_utf8Join_of_ne (c : Nat) (t : List Nat) (hv : ValidScalar c)
    (hne : c ≠ 0xFEFF) :
    bomStrip (utf8EncodeChar c ++ utf8Join t) = utf8EncodeChar c ++ utf8Join t := by
  obtain ⟨h1, h2⟩ := hv
  by_cases hA : c < 0x80
  · rw [show utf8EncodeChar c = [c] from by rw [utf8EncodeChar, if_pos hA]]
    exact bomStrip_head_ne _ (by intro x hx; simp [List.singleton_append] at hx; omega)
  · by_cases hB : c < 0x800
    · rw [show utf8EncodeChar c = [0xC0 + c / 64, 0x80 + c % 64] from by
        rw [utf8EncodeChar, if_neg hA, if_pos hB]]
      exact bomStrip_head_ne _ (by intro x hx; simp [List.cons_append] at hx; omega)
    · by_cases hC : c < 0x10000
      · rw [show utf8EncodeChar c = [0xE0 + c / 4096, 0x80 + (c / 64) % 64, 0x80 + c % 64] from by
          rw [utf8EncodeChar, if_neg hA, if_neg hB, if_pos hC]]
        rw [List.cons_append, List.cons_append, List.singleton_append]
        rw [bomStrip_cons3, if_neg]
        intro hc
        obtain ⟨e1, e2, e3⟩ := hc
        exact hne (by omega)
      · rw [show utf8EncodeChar c =
            [0xF0 + c / 0x40000, 0x80 + (c / 4096) % 64, 0x80 + (c / 64) % 64, 0x80 + c % 64] from by
          rw [utf8EncodeChar, if_neg hA, if_neg hB, if_neg hC]]
        exact bomStrip_head_ne _ (by intro x hx; simp [List.cons_append] at hx; omega)

theorem utf8SigDecode_utf8Join (T : List Nat) (h : ∀ c ∈ T, ValidScalar c) :
    utf8SigDecode (utf8Join T) = some (charBomDrop T) := by
  cases T with
  | nil => rfl
  | cons c t =>
    have hc : ValidScalar c := h c (List.mem_cons_self c t)
    have ht : ∀ x ∈ t, ValidScalar x := fun x hx => h x (List.mem_cons_of_mem c hx)
    by_cases hne : c = 0xFEFF
    · subst hne
      rw [utf8Join_cons,
        show utf8EncodeChar 0xFEFF = [0xEF, 0xBB, 0xBF] from by decide]
      unfold utf8SigDecode
      rw [List.cons_append, List.cons_append, List.singleton_append,
        bomStrip_cons3, if_pos ⟨rfl, rfl, rfl⟩]
      rw [utf8Decode_utf8Join t ht]
      rfl
    · unfold utf8SigDecode
      rw [utf8Join_cons, bomStrip_utf8Join_of_ne c t hc hne, ← utf8Join_cons]
      rw [utf8Decode_utf8Join (c :: t) h]
      simp [charBomDrop, hne]

theorem utf8SigDecode_bom_encode (T : List Nat) (h : ∀ c ∈ T, ValidScalar c) :
    utf8SigDecode (0xEF :: 0xBB :: 0xBF :: utf8Join T) = some T := by
  unfold utf8SigDecode
  rw [bomStrip_cons3, if_pos ⟨rfl, rfl, rfl⟩]
  exact utf8Decode_utf8Join T h

theorem decodeLoop_utf8Join (T : List Nat) (h : ∀ c ∈ T, ValidScalar c) :
    decodeLoop (utf8Join T) = some (charBomDrop T) := by
  unfold decodeLoop encodings_to_try
  rw [decodeLoopAux]
  rw [show decodeWith CandidateEncoding.utf8sig (utf8Join T) = some (charBomDrop T) from
    utf8SigDecode_utf8Join T h]

theorem decodeLoop_bom_utf8Join (T : List Nat) (h : ∀ c ∈ T, ValidScalar c) :
    decodeLoop (0xEF :: 0xBB :: 0xBF :: utf8Join T) = some T := by
  unfold decodeLoop encodings_to_try
  rw [decodeLoopAux]
  rw [show decodeWith CandidateEncoding.utf8sig (0xEF :: 0xBB :: 0xBF :: utf8Join T) = some T from
    utf8SigDecode_bom_encode T h]

theorem nlTranslateF_cons (f : Nat) (c : Nat) (rest : List Nat) :
    nlTranslateF (f + 1) (c :: rest) =
    (if c = 13 then
      match rest with
      | d :: rest2 =>
        if d = 10 then 10 :: nlTranslateF f rest2 else 10 :: nlTranslateF f (d :: rest2)
      | [] => [10]
    else c :: nlTranslateF f rest) := rfl

theorem nlTranslate_cons_ne13 (c : Nat) (t : List Nat) (h : c ≠ 13) :
    nlTranslate (c :: t) = c :: nlTranslate t := by
  show nlTranslateF (c :: t).length (c :: t) = _
  rw [List.length_cons, nlTranslateF_cons, if_neg h]
  rfl

theorem stripChars_cons_feff (t : List Nat) :
    stripChars (0xFEFF :: t) = stripChars t := by
  simp [stripChars, pyRemoveAll]

theorem strip_nl_charBomDrop (T : List Nat) :
    stripChars (nlTranslate (charBomDrop T)) = stripChars (nlTranslate T) := by
  cases T with
  | nil => rfl
  | cons c t =>
    by_cases hc : c = 0xFEFF
    · subst hc
      rw [show charBomDrop (0xFEFF :: t) = t from by simp [charBomDrop]]
      rw [nlTranslate_cons_ne13 0xFEFF t (by omega), stripChars_cons_feff]
    · rw [show charBomDrop (c :: t) = c :: t from by simp [charBomDrop, hc]]


theorem decodeLoop_isSome (bs : Bytes) : (decodeLoop bs).isSome = true := by
  unfold decodeLoop encodings_to_try
  rw [decodeLoopAux]
  cases h1 : decodeWith CandidateEncoding.utf8sig bs with
  | some t => rfl
  | none =>
    rw [decodeLoopAux]
    cases h2 : decodeWith CandidateEncoding.utf8 bs with
    | some t => rfl
    | none => rw [decodeLoopAux]; rfl

/-- C7: the decoding phase of create_temp_utf8_file is total: the candidate
loop always succeeds (latin-1 decodes every byte string), so the decoded
content always exists and no decoding exception escapes. -/
theorem C7_decoding_never_raises (bs : Bytes) :
    decodeLoop bs = some (readContent bs) := by
  have h := decodeLoop_isSome bs
  unfold readContent
  cases hd : decodeLoop bs with
  | some t => rfl
  | none => rw [hd] at h; simp at h

/-- C5: the two stripped characters never appear in the scratch text. -/
theorem C5_stripped_absent (bs : Bytes) :
    0xFEFF ∉ scratchText bs ∧ 0x9D ∉ scratchText bs := by
  unfold scratchText stripChars pyRemoveAll
  constructor <;> simp

/-- C4 counterexample: for the candidate encoding cp1252 and the one-character
text euro sign (U+20AC), the encoded file holds the single byte 0x80, but the
normalization pipeline decodes that byte with latin-1 (which precedes cp1252 in
the candidate list and never fails), producing U+0080: the scratch content is
not the original text minus the stripped characters. -/
theorem C4_counterexample :
    encodeWith CandidateEncoding.cp1252 [0x20AC] = some [0x80] ∧
    scratchText [0x80] = [0x80] ∧
    stripChars [0x20AC] = [0x20AC] ∧
    scratchText [0x80] ≠ stripChars [0x20AC] := by decide

/-- C4 amended: the round-trip property does hold for the two UTF-8 candidates:
for every text of Unicode scalar values, the scratch content is the text with
universal-newline translation applied and the two stripped characters removed.
For the single-byte candidates it fails (see the counterexample): latin-1
precedes cp1252 and decodes every byte string, and legacy bytes can also form
valid UTF-8. -/
theorem C4_utf8_roundtrip (E : CandidateEncoding)
    (hE : E = CandidateEncoding.utf8sig ∨ E = CandidateEncoding.utf8)
    (T : List Nat) (hT : ∀ c ∈ T, ValidScalar c) :
    ∃ bs, encodeWith E T = some bs ∧ scratchText bs = stripChars (nlTranslate T) := by
  have henc : utf8Encode T = some (utf8Join T) := by
    unfold utf8Encode
    rw [if_pos]
    simp only [List.all_eq_true, decide_eq_true_eq]
    exact hT
  rcases hE with hE | hE <;> subst hE
  · refine ⟨0xEF :: 0xBB :: 0xBF :: utf8Join T, ?_, ?_⟩
    · show utf8SigEncode T = _
      rw [utf8SigEncode, henc]
      rfl
    · unfold scratchText
      rw [show readContent (0xEF :: 0xBB :: 0xBF :: utf8Join T) = T from by
        unfold readContent
        rw [decodeLoop_bom_utf8Join T hT]]
  · refine ⟨utf8Join T, ?_, ?_⟩
    · exact henc
    · unfold scratchText
      rw [show readContent (utf8Join T) = charBomDrop T from by
        unfold readContent
        rw [decodeLoop_utf8Join T hT]]
      exact strip_nl_charBomDrop T

theorem C4_utf8_roundtrip_witness :
    ∃ bs, encodeWith CandidateEncoding.utf8 [65, 66] = some bs ∧
      scratchText bs = stripChars (nlTranslate [65, 66]) :=
  C4_utf8_roundtrip CandidateEncoding.utf8 (Or.inr rfl) [65, 66] (by decide)

/-! ## Lemmas about the task runner -/

theorem fsRead_cleanupTemp_ne (w : World) (a : TaskArgs) (fs0 fs : FS) (q : Str)
    (h : q ≠ tempPathOf a.txt_file_path) :
    fsRead (cleanupTemp w a fs0 fs) q = fsRead fs q := by
  unfold cleanupTemp
  split
  · split
    · exact fsRead_remove_ne _ _ _ h
    · rfl
  · rfl

theorem fsRead_cleanupTemp_temp (w : World) (a : TaskArgs) (fs0 fs : FS)
    (h : tempCreated w a fs0 = true) :
    fsRead (cleanupTemp w a fs0 fs) (tempPathOf a.txt_file_path) = none := by
  unfold cleanupTemp
  rw [if_pos h]
  by_cases h2 : (fsRead fs (tempPathOf a.txt_file_path)).isSome
  · rw [if_pos h2]
    exact fsRead_remove_self _ _
  · rw [if_neg h2]
    cases hr : fsRead fs (tempPathOf a.txt_file_path) with
    | none => rfl
    | some c => rw [hr] at h2; simp at h2

theorem fsRead_cleanupTemp_of_none (w : World) (a : TaskArgs) (fs0 fs : FS) (q : Str)
    (h : fsRead fs q = none) :
    fsRead (cleanupTemp w a fs0 fs) q = none := by
  unfold cleanupTemp
  split
  · split
    · exact fsRead_remove_of_none _ _ _ h
    · exact h
  · exact h

theorem discovered_eq_head (w : World) (a : TaskArgs) (fs0 : FS) :
    discovered w a fs0 = (newBundlesList w a fs0).head? := rfl

theorem fsRead_isSome_of_mem_glob (dir : Str) (fs : FS) (p : Str)
    (h : p ∈ globBundles dir fs) :
    (fsRead fs p).isSome := by
  unfold globBundles at h
  exact fsRead_isSome_of_mem fs p (List.mem_of_mem_filter h)

/-- C1: when the subprocess exits zero and exactly one new bundle artifact
appears in the external tool output directory, process_single_file moves that
artifact to output_dir joined with the input stem followed by the mode suffix
and .json, the artifact is gone from its original location, and the function
returns (true, that path).  The two disequality hypotheses only exclude
degenerate aliasing of the three involved paths, impossible under the
bundle--*.json artifact pattern and the preset suffixes. -/
theorem C1_success_move (w : World) (a : TaskArgs) (fs0 : FS) (b : Str)
    (hexit : w.subprocessExit = 0)
    (hone : newBundlesList w a fs0 = [b])
    (hrn : w.renameFails = false)
    (hb : b ≠ outputPathOf a)
    (ht : outputPathOf a ≠ tempPathOf a.txt_file_path) :
    (process_single_file w a fs0).outcome = .ret true (some (outputPathOf a)) ∧
    fsRead (process_single_file w a fs0).fs (outputPathOf a) = fsRead (fsAfterRun w a fs0) b ∧
    fsRead (process_single_file w a fs0).fs b = none := by
  have hd : discovered w a fs0 = some b := by
    rw [discovered_eq_head, hone]
    rfl
  have hmem : b ∈ globBundles txt2stixOutputDir (fsAfterRun w a fs0) := by
    have hmem0 : b ∈ newBundlesList w a fs0 := by
      rw [hone]
      exact List.mem_singleton.mpr rfl
    exact List.mem_of_mem_filter hmem0
  obtain ⟨c, hc⟩ := Option.isSome_iff_exists.mp (fsRead_isSome_of_mem_glob _ _ _ hmem)
  have hren : fsRename (fsAfterRun w a fs0) b (outputPathOf a)
      = fsWrite (fsRemove (fsAfterRun w a fs0) b) (outputPathOf a) c := by
    unfold fsRename
    rw [hc]
  unfold process_single_file
  rw [hexit, if_neg (by omega : ¬ (0 : Nat) ≠ 0), hd, hrn]
  dsimp only
  rw [if_neg Bool.false_ne_true]
  refine ⟨rfl, ?_, ?_⟩
  · rw [fsRead_cleanupTemp_ne w a fs0 _ _ ht, hren, fsRead_write_self, hc]
  · apply fsRead_cleanupTemp_of_none
    rw [hren, fsRead_write_ne _ _ _ _ hb]
    exact fsRead_remove_self _ _

/-- C2: zero exit but no new bundle file in the rescan: the task returns
(false, none), never success. -/
theorem C2_no_artifact_failure (w : World) (a : TaskArgs) (fs0 : FS)
    (hexit : w.subprocessExit = 0)
    (hz : newBundlesList w a fs0 = []) :
    (process_single_file w a fs0).outcome = .ret false none := by
  have hd : discovered w a fs0 = none := by
    rw [discovered_eq_head, hz]
    rfl
  unfold process_single_file
  rw [hexit, if_neg (by omega : ¬ (0 : Nat) ≠ 0), hd]

/-- C6: whenever the scratch file was created, it is gone from the filesystem
when process_single_file finishes, on every exit path (success, subprocess
failure, discovery miss, or the uncaught rename fault). -/
theorem C6_scratch_deleted (w : World) (a : TaskArgs) (fs0 : FS)
    (h : tempCreated w a fs0 = true) :
    fsRead (process_single_file w a fs0).fs (tempPathOf a.txt_file_path) = none := by
  unfold process_single_file
  split
  · exact fsRead_cleanupTemp_temp w a fs0 _ h
  · split
    · exact fsRead_cleanupTemp_temp w a fs0 _ h
    · split
      · exact fsRead_cleanupTemp_temp w a fs0 _ h
      · exact fsRead_cleanupTemp_temp w a fs0 _ h

/-- C9: once the artifact is discovered and the rename succeeds, the outcome of
the best-effort stats block (opening the moved bundle, json-parsing it and
counting its objects collection) is irrelevant: the task returns
(true, output path) and leaves the same filesystem whatever that outcome is,
including any exception (modelled by the parse outcome none).  Only the printed
log can differ. -/
theorem C9_enrichment_swallowed (w : World) (a : TaskArgs) (fs0 : FS) (b : Str)
    (hexit : w.subprocessExit = 0)
    (hfind : discovered w a fs0 = some b)
    (hrn : w.renameFails = false) :
    ∀ o1 o2 : Option Nat,
      (process_single_file { w with parseObjects := o1 } a fs0).outcome
          = .ret true (some (outputPathOf a)) ∧
      (process_single_file { w with parseObjects := o1 } a fs0).fs
          = (process_single_file { w with parseObjects := o2 } a fs0).fs ∧
      (process_single_file { w with parseObjects := o1 } a fs0).cmd
          = (process_single_file { w with parseObjects := o2 } a fs0).cmd := by
  intro o1 o2
  have run : ∀ o : Option Nat,
      process_single_file { w with parseObjects := o } a fs0 =
      { outcome := .ret true (some (outputPathOf a)),
        fs := cleanupTemp w a fs0 (fsRename (fsAfterRun w a fs0) b (outputPathOf a)),
        cmd := buildCmd { w with parseObjects := o } a (txtFileToUse w a fs0),
        log := (if tempCreated w a fs0 then [] else [.tempWarning]) ++
          [.success (outputPathOf a)] ++
          (match o with
           | some n => [LogEvent.objectCount n]
           | none => []) } := by
    intro o
    have hfind2 : discovered { w with parseObjects := o } a fs0 = some b := hfind
    have hni : ¬ (({ w with parseObjects := o } : World).subprocessExit ≠ 0) := by
      simp [hexit]
    unfold process_single_file
    rw [if_neg hni, hfind2]
    dsimp only
    rw [hrn, if_neg Bool.false_ne_true]
    rfl
  rw [run o1, run o2]
  exact ⟨rfl, rfl, rfl⟩

/-- C3 counterexample: in a batch of two tasks (two txt files under one mode),
a rename failure in the first task raises an exception that neither
process_single_file (which catches only subprocess and Unicode errors) nor the
batch driver catches: the batch aborts after one executed task with an empty
failed-task list instead of recording the failure and running the second task. -/
theorem C3_counterexample :
    (globTxt (("in").toList) sampleBatchFS).length = 2 ∧
    sampleModes.length = 1 ∧
    (batch_process_multimode sampleBatchWorlds (("in").toList) (("out").toList)
        sampleModes none [] sampleBatchFS).aborted = true ∧
    (batch_process_multimode sampleBatchWorlds (("in").toList) (("out").toList)
        sampleModes none [] sampleBatchFS).executed = 1 ∧
    (batch_process_multimode sampleBatchWorlds (("in").toList) (("out").toList)
        sampleModes none [] sampleBatchFS).failed = [] ∧
    (batch_process_multimode sampleBatchWorlds (("in").toList) (("out").toList)
        sampleModes none [] sampleBatchFS).successCount = 0 := by decide

/-- C3 amended: a move failure is an uncaught OSError.  In any batch whose
first pending task is configured so that the artifact is discovered and the
rename then fails, the task outcome is the escaping exception, and the driver
loop stops right there: it reports the batch aborted, only this task executed,
and the failure is not recorded in the failed list; the remaining tasks never
run.  Only subprocess failures and discovery misses are per-task isolated. -/
theorem C3_amended_rename_aborts (ws : Nat → World) (output_dir : Str)
    (extractions : Option Str) (additional_args : List (Str × Option Str))
    (f : Str) (m : Mode) (rest : List (Str × Mode)) (fs0 : FS) (b : Str)
    (hexit : (ws 0).subprocessExit = 0)
    (hfind : discovered (ws 0) (mkTaskArgs f output_dir m extractions additional_args) fs0 = some b)
    (hrn : (ws 0).renameFails = true) :
    (process_single_file (ws 0) (mkTaskArgs f output_dir m extractions additional_args) fs0).outcome
        = .raised (("OSError").toList) ∧
    (runTasksAux ws output_dir extractions additional_args ((f, m) :: rest) 0 0 [] fs0 []).aborted
        = true ∧
    (runTasksAux ws output_dir extractions additional_args ((f, m) :: rest) 0 0 [] fs0 []).executed
        = 1 ∧
    (runTasksAux ws output_dir extractions additional_args ((f, m) :: rest) 0 0 [] fs0 []).failed
        = [] := by
  have hout : (process_single_file (ws 0)
      (mkTaskArgs f output_dir m extractions additional_args) fs0).outcome
      = .raised (("OSError").toList) := by
    unfold process_single_file
    rw [hexit, if_neg (by omega : ¬ (0 : Nat) ≠ 0), hfind]
    dsimp only
    rw [hrn, if_pos rfl]
  refine ⟨hout, ?_, ?_, ?_⟩ <;>
    · unfold runTasksAux
      rw [hout]

/-! ## Lemmas about the command-line surface -/

theorem parseModesList_eq_filterMap (toks : List Str) :
    (parseModesList toks).1
      = toks.filterMap (fun t => PRESET_MODES (normalizeModeToken t)) := by
  induction toks with
  | nil => rfl
  | cons tok rest ih =>
    unfold parseModesList
    cases hm : PRESET_MODES (normalizeModeToken tok) with
    | some pm => simp [List.filterMap_cons, hm, ih]
    | none => simp [List.filterMap_cons, hm, ih]

theorem parseModesList_warning (toks : List Str) (t : Str) (ht : t ∈ toks)
    (hnone : PRESET_MODES (normalizeModeToken t) = none) :
    LogEvent.unknownMode (normalizeModeToken t) ∈ (parseModesList toks).2 := by
  induction toks with
  | nil => cases ht
  | cons tok rest ih =>
    rcases List.mem_cons.mp ht with h | h
    · subst h
      unfold parseModesList
      rw [hnone]
      exact List.mem_cons_self _ _
    · unfold parseModesList
      cases hm : PRESET_MODES (normalizeModeToken tok) with
      | some pm => exact ih h
      | none => exact List.mem_cons_of_mem _ (ih h)

/-- C8: mode-token validation.  The selected modes are exactly the presets of
the tokens that match the table after stripping and lowering, so an unknown
token is excluded; every unknown token leaves a warning in the log; and when
no token matches, main takes the error return: it never reaches the batch
driver, runs no task and leaves the filesystem untouched. -/
theorem C8_unknown_modes (args : Args) (ws : Nat → World) (fs0 : FS) :
    (parseSelectedModes args.modes).1
      = (pySplit ',' args.modes).filterMap (fun t => PRESET_MODES (normalizeModeToken t)) ∧
    (∀ t ∈ pySplit ',' args.modes, PRESET_MODES (normalizeModeToken t) = none →
      LogEvent.unknownMode (normalizeModeToken t) ∈ (parseSelectedModes args.modes).2) ∧
    ((∀ t ∈ pySplit ',' args.modes, PRESET_MODES (normalizeModeToken t) = none) →
      (main ws args fs0).ranBatch = false ∧ (main ws args fs0).batch = none ∧
      (main ws args fs0).fs = fs0) := by
  refine ⟨parseModesList_eq_filterMap _, ?_, ?_⟩
  · intro t ht hnone
    exact parseModesList_warning _ t ht hnone
  · intro hall
    have hsel : (parseSelectedModes args.modes).1 = [] := by
      unfold parseSelectedModes
      rw [parseModesList_eq_filterMap]
      exact List.filterMap_eq_nil_iff.mpr hall
    unfold main
    rw [if_pos hsel]
    exact ⟨rfl, rfl, rfl⟩

/-- C10: a confidence score of zero is Python-falsy: the forwarded extra
arguments are identical to those of an absent confidence flag, no forwarded
key is the confidence key, the constructed converter command line is the same
as with the flag omitted, and only a non-zero confidence is ever forwarded. -/
theorem C10_confidence_zero (a : Args) (h : a.confidence = some 0) :
    buildAdditionalArgs a = buildAdditionalArgs { a with confidence := none } ∧
    (∀ kv ∈ buildAdditionalArgs a, kv.1 ≠ ("confidence").toList) ∧
    (∀ (w : World) (ta : TaskArgs) (use : Str),
      buildCmd w { ta with additional_args := buildAdditionalArgs a } use =
      buildCmd w { ta with additional_args := buildAdditionalArgs { a with confidence := none } } use) ∧
    (∀ c : Int, c ≠ 0 →
      (("confidence").toList, some (intToStr c))
        ∈ buildAdditionalArgs { a with confidence := some c }) := by
  have heq : buildAdditionalArgs a = buildAdditionalArgs { a with confidence := none } := by
    unfold buildAdditionalArgs
    rw [h]
    simp
  refine ⟨heq, ?_, ?_, ?_⟩
  · intro kv hkv
    unfold buildAdditionalArgs at hkv
    rw [h] at hkv
    simp only [if_neg (by omega : ¬ (0 : Int) ≠ 0)] at hkv
    rcases List.mem_append.mp hkv with hk | hk
    · rcases List.mem_append.mp hk with hk2 | hk2
      · by_cases htl : a.tlp_level ≠ ("clear").toList
        · rw [if_pos htl] at hk2
          have hkv1 : kv.1 = ("tlp_level").toList := by rw [List.mem_singleton.mp hk2]
          rw [hkv1]
          decide
        · rw [if_neg htl] at hk2
          cases hk2
      · cases hk2
    · cases hl : a.labels with
      | none => rw [hl] at hk; cases hk
      | some l =>
        rw [hl] at hk
        dsimp only at hk
        by_cases hle : l ≠ []
        · rw [if_pos hle] at hk
          have hkv1 : kv.1 = ("labels").toList := by rw [List.mem_singleton.mp hk]
          rw [hkv1]
          decide
        · rw [if_neg hle] at hk
          cases hk
  · intro w ta use
    rw [heq]
  · intro c hc
    unfold buildAdditionalArgs
    simp only [if_pos hc]
    simp

/-! ## Concrete witnesses -/

theorem C1_success_move_witness :
    (process_single_file sampleWorldOk sampleArgs sampleFS).outcome
        = .ret true (some (outputPathOf sampleArgs)) ∧
    fsRead (process_single_file sampleWorldOk sampleArgs sampleFS).fs (outputPathOf sampleArgs)
        = fsRead (fsAfterRun sampleWorldOk sampleArgs sampleFS) (("output/bundle--r1.json").toList) ∧
    fsRead (process_single_file sampleWorldOk sampleArgs sampleFS).fs
        (("output/bundle--r1.json").toList) = none :=
  C1_success_move sampleWorldOk sampleArgs sampleFS (("output/bundle--r1.json").toList)
    (by decide) (by decide) (by decide) (by decide) (by decide)

theorem C2_no_artifact_failure_witness :
    (process_single_file sampleWorldNoBundle sampleArgs sampleFS).outcome = .ret false none :=
  C2_no_artifact_failure sampleWorldNoBundle sampleArgs sampleFS (by decide) (by decide)

theorem C3_amended_rename_aborts_witness :
    (process_single_file (sampleBatchWorlds 0)
        (mkTaskArgs (("in/a.txt").toList) (("out").toList)
          ((("_txt2stix+standard").toList, ("standard").toList, none)) none [])
        sampleBatchFS).outcome
      = .raised (("OSError").toList) ∧
    (runTasksAux sampleBatchWorlds (("out").toList) none []
        [((("in/a.txt").toList), ((("_txt2stix+standard").toList), ("standard").toList, none)),
         ((("in/b.txt").toList), ((("_txt2stix+standard").toList), ("standard").toList, none))]
        0 0 [] sampleBatchFS []).aborted = true ∧
    (runTasksAux sampleBatchWorlds (("out").toList) none []
        [((("in/a.txt").toList), ((("_txt2stix+standard").toList), ("standard").toList, none)),
         ((("in/b.txt").toList), ((("_txt2stix+standard").toList), ("standard").toList, none))]
        0 0 [] sampleBatchFS []).executed = 1 ∧
    (runTasksAux sampleBatchWorlds (("out").toList) none []
        [((("in/a.txt").toList), ((("_txt2stix+standard").toList), ("standard").toList, none)),
         ((("in/b.txt").toList), ((("_txt2stix+standard").toList), ("standard").toList, none))]
        0 0 [] sampleBatchFS []).failed = [] :=
  C3_amended_rename_aborts sampleBatchWorlds (("out").toList) none []
    (("in/a.txt").toList) ((("_txt2stix+standard").toList), ("standard").toList, none)
    [((("in/b.txt").toList), ((("_txt2stix+standard").toList), ("standard").toList, none))]
    sampleBatchFS (("output/bundle--r1.json").toList)
    (by decide) (by decide) (by decide)

theorem C6_scratch_deleted_witness :
    fsRead (process_single_file sampleWorldOk sampleArgs sampleFS).fs
      (tempPathOf sampleArgs.txt_file_path) = none :=
  C6_scratch_deleted sampleWorldOk sampleArgs sampleFS (by decide)

theorem C8_unknown_modes_witness :
    (main sampleBatchWorlds sampleArgsUnknownModes sampleFS).ranBatch = false ∧
    (main sampleBatchWorlds sampleArgsUnknownModes sampleFS).batch = none ∧
    (main sampleBatchWorlds sampleArgsUnknownModes sampleFS).fs = sampleFS :=
  (C8_unknown_modes sampleArgsUnknownModes sampleBatchWorlds sampleFS).2.2 (by decide)

theorem C9_enrichment_swallowed_witness :
    (process_single_file { sampleWorldOk with parseObjects := none } sampleArgs sampleFS).outcome
        = .ret true (some (outputPathOf sampleArgs)) ∧
    (process_single_file { sampleWorldOk with parseObjects := none } sampleArgs sampleFS).fs
        = (process_single_file { sampleWorldOk with parseObjects := some 7 } sampleArgs sampleFS).fs ∧
    (process_single_file { sampleWorldOk with parseObjects := none } sampleArgs sampleFS).cmd
        = (process_single_file { sampleWorldOk with parseObjects := some 7 } sampleArgs sampleFS).cmd :=
  C9_enrichment_swallowed sampleWorldOk sampleArgs sampleFS (("output/bundle--r1.json").toList)
    (by decide) (by decide) (by decide) none (some 7)

theorem C10_confidence_zero_witness :
    buildAdditionalArgs sampleArgsConfidenceZero
      = buildAdditionalArgs { sampleArgsConfidenceZero with confidence := none } ∧
    (("confidence").toList, some (intToStr 50))
      ∈ buildAdditionalArgs { sampleArgsConfidenceZero with confidence := some 50 } :=
  ⟨(C10_confidence_zero sampleArgsConfidenceZero (by decide)).1,
   (C10_confidence_zero sampleArgsConfidenceZero (by decide)).2.2.2 50 (by decide)⟩

end BatchProcess
